import Mathlib

/-!
Verification of the Minecraft server monitor plugin (src/main.py).

The source is a Python plugin. Its pure logic is embedded here:

* `PyVal` models the Python/JSON values flowing through the code
  (truthiness, str conversion, dict lookup as in CPython).
* `_extract_player_names` embeds the method of the same name
  (src/main.py lines 84-110).
* `normalizeData` embeds the pure normalization portion of
  `_fetch_server_data` (lines 137-214): from a parsed JSON document to
  the server-data dictionary the rest of the plugin consumes; a
  non-object top level makes the Python raise AttributeError, which the
  surrounding catch-all turns into a None return, modelled as `none`.
* `check_server_changes` embeds the change detector of the same name
  (lines 298-353).  The Python returns a message string; here each
  distinct return path is a `CheckMsg` constructor, and the change
  strings built from Python sets are modelled as `ChangeEvent` values
  carrying exactly the data interpolated into the string (the name set
  as a `Finset String`, since Python set iteration order is arbitrary,
  and the count shown).
* `pollOnce` embeds the per-iteration decision of `direct_hello_task`
  (lines 398-440): skip on failed fetch, otherwise detect and notify
  only when the detector asks to.
* The VarInt codec does not exist in the source; it is modelled from
  the spec for the round-trip claim.
-/

mutual
/-- A Python value as produced by JSON decoding (plus `None`).  JSON
numbers are modelled as integers (the fields the code coerces are
integer-valued in the upstream schema); dictionaries keep insertion
order with distinct keys, as CPython dicts iterate. -/
inductive PyVal where
  | none
  | bool (b : Bool)
  | int (n : Int)
  | str (s : String)
  | list (xs : PyList)
  | dict (kvs : PyDict)
deriving DecidableEq

/-- A list of Python values. -/
inductive PyList where
  | nil
  | cons (h : PyVal) (t : PyList)
deriving DecidableEq

/-- The entries of a Python dict, in insertion order. -/
inductive PyDict where
  | nil
  | cons (k : String) (v : PyVal) (t : PyDict)
deriving DecidableEq
end

/-- View a `PyList` as a Lean list. -/
def PyList.toList : PyList → List PyVal
  | .nil => []
  | .cons h t => h :: t.toList

/-- Build a `PyList` from a Lean list. -/
def PyList.ofList : List PyVal → PyList
  | [] => .nil
  | h :: t => .cons h (PyList.ofList t)

/-- View a `PyDict` as a Lean association list. -/
def PyDict.toList : PyDict → List (String × PyVal)
  | .nil => []
  | .cons k v t => (k, v) :: t.toList

/-- Build a `PyDict` from a Lean association list. -/
def PyDict.ofList : List (String × PyVal) → PyDict
  | [] => .nil
  | (k, v) :: t => .cons k v (PyDict.ofList t)

/-- Shorthand for a Python list literal. -/
def pyList (xs : List PyVal) : PyVal := .list (PyList.ofList xs)

/-- Shorthand for a Python dict literal. -/
def pyDict (kvs : List (String × PyVal)) : PyVal := .dict (PyDict.ofList kvs)

/-- CPython truthiness: `None`, `False`, `0`, empty string, empty list and
empty dict are falsy; everything else is truthy. -/
def pyTruthy : PyVal → Bool
  | .none => false
  | .bool b => b
  | .int n => n != 0
  | .str s => s != ""
  | .list .nil => false
  | .list (.cons _ _) => true
  | .dict .nil => false
  | .dict (.cons _ _ _) => true

mutual
/-- CPython `repr` of a value (element strings are quoted).  Only the
shape matters to the claims; string escaping inside `repr` is not
modelled. -/
def pyRepr : PyVal → String
  | .none => "None"
  | .bool true => "True"
  | .bool false => "False"
  | .int n => toString n
  | .str s => "\x27" ++ s ++ "\x27"
  | .list xs => "[" ++ pyReprElems xs ++ "]"
  | .dict kvs => "\x7b" ++ pyReprKvs kvs ++ "\x7d"

/-- Comma-separated `repr` of list elements. -/
def pyReprElems : PyList → String
  | .nil => ""
  | .cons x .nil => pyRepr x
  | .cons x xs => pyRepr x ++ ", " ++ pyReprElems xs

/-- Comma-separated `repr` of dict items. -/
def pyReprKvs : PyDict → String
  | .nil => ""
  | .cons k v .nil => "\x27" ++ k ++ "\x27: " ++ pyRepr v
  | .cons k v kvs => "\x27" ++ k ++ "\x27: " ++ pyRepr v ++ ", " ++ pyReprKvs kvs
end

/-- CPython `str()`: the identity on strings, `repr` otherwise. -/
def pyStr : PyVal → String
  | .str s => s
  | v => pyRepr v

/-- `d.get(k)`: the value at `k`, or `None` when absent. -/
def dictGet (kvs : PyDict) (k : String) : PyVal :=
  match kvs.toList.lookup k with
  | some v => v
  | Option.none => .none

/-- `d.get(k, dflt)`: the value at `k`, or `dflt` when absent. -/
def dictGetD (kvs : PyDict) (k : String) (dflt : PyVal) : PyVal :=
  match kvs.toList.lookup k with
  | some v => v
  | Option.none => dflt

/-- `k in d`. -/
def dictHas (kvs : PyDict) (k : String) : Bool :=
  (kvs.toList.lookup k).isSome

/-- Python `a or b`: the first operand when truthy, otherwise the second. -/
def pyOr (a b : PyVal) : PyVal :=
  if pyTruthy a then a else b

/-- Whitespace for Python `str.strip()` (the ASCII whitespace characters;
the code only ever strips fragments of player-name strings). -/
def isPySpace (c : Char) : Bool :=
  c = ' ' || c = '\t' || c = '\n' || c = '\r' || c = '\x0b' || c = '\x0c'

/-- Python `s.strip()`: drop leading and trailing whitespace. -/
def pyStrip (s : String) : String :=
  String.mk (((s.data.dropWhile isPySpace).reverse.dropWhile isPySpace).reverse)

/-- Helper for `pySplitComma`, walking the characters with the fragment
accumulated so far (in reverse). -/
def pySplitCommaAux : List Char → List Char → List String
  | [], acc => [String.mk acc.reverse]
  | c :: cs, acc =>
      if c = ',' then String.mk acc.reverse :: pySplitCommaAux cs []
      else pySplitCommaAux cs (c :: acc)

/-- Python `s.split(",")`: split at every comma; `n+1` fragments for `n`
commas (the empty string yields one empty fragment). -/
def pySplitComma (s : String) : List String :=
  pySplitCommaAux s.data []

/-- The alias chain of `_extract_player_names` for one dict record:
`p.get("name") or p.get("username") or p.get("name_clean") or
p.get("playername") or p.get("xuid")` (src/main.py line 102). -/
def aliasLookup (kvs : PyDict) : PyVal :=
  pyOr (dictGet kvs "name")
    (pyOr (dictGet kvs "username")
      (pyOr (dictGet kvs "name_clean")
        (pyOr (dictGet kvs "playername") (dictGet kvs "xuid"))))

/-- The loop body of `_extract_player_names` over a list sample
(src/main.py lines 98-107): a dict record contributes `str(name)` when
its alias chain is truthy and is dropped otherwise; every non-dict
element contributes its `str()`. -/
def extractFromList : List PyVal → List String
  | [] => []
  | .dict kvs :: rest =>
      if pyTruthy (aliasLookup kvs)
      then pyStr (aliasLookup kvs) :: extractFromList rest
      else extractFromList rest
  | p :: rest => pyStr p :: extractFromList rest

/-- `_extract_player_names` (src/main.py lines 84-110): falsy input gives
`[]`; a string is split on commas, fragments stripped, empties dropped;
a list goes through `extractFromList`; any other type gives `[]`. -/
def _extract_player_names (player_sample : PyVal) : List String :=
  if !pyTruthy player_sample then []
  else
    match player_sample with
    | .str s => ((pySplitComma s).map pyStrip).filter (fun x => x != "")
    | .list xs => extractFromList xs.toList
    | _ => []


/-- The server-data dictionary built by `_fetch_server_data`
(src/main.py lines 206-214).  `online` and `max` are the only coerced
fields; `status`, `name`, `version`, `players` and `motd` hold whatever
value the code stored (the source performs no further coercion). -/
structure ServerData where
  status : PyVal
  name : PyVal
  version : PyVal
  online : Int
  max : Int
  players : PyVal
  motd : PyVal
deriving DecidableEq

/-- The mutable monitor state held on the plugin instance
(src/main.py lines 40-42): `last_player_count` (`None` before the first
observation), `last_player_list`, `last_status`. -/
structure MonitorState where
  last_player_count : Option Int
  last_player_list : List String
  last_status : Option PyVal
deriving DecidableEq

/-- Decimal digits accumulated left to right; any non-digit character
fails. -/
def digitsToNatAux : List Char → Nat → Option Nat
  | [], acc => some acc
  | c :: cs, acc =>
      if c.isDigit then digitsToNatAux cs (acc * 10 + (c.toNat - 48))
      else Option.none

/-- Python `int(s)` on a string: strip whitespace, allow one optional
sign, then decimal digits; anything else raises `ValueError`, modelled
as `none`. -/
def pyParseInt (s : String) : Option Int :=
  match (pyStrip s).data with
  | [] => Option.none
  | '-' :: [] => Option.none
  | '-' :: c :: cs => (digitsToNatAux (c :: cs) 0).map (fun n => -(n : Int))
  | '+' :: [] => Option.none
  | '+' :: c :: cs => (digitsToNatAux (c :: cs) 0).map (fun n => (n : Int))
  | cs => (digitsToNatAux cs 0).map (fun n => (n : Int))

/-- `int(raw) if raw else 0` with `ValueError`/`TypeError` defaulted to 0
(src/main.py lines 156-164): falsy values give 0; ints pass through;
`True` gives 1; strings parse as a (stripped, optionally signed) decimal
literal or give 0; lists and dicts raise `TypeError`, giving 0. -/
def pyToIntDefault0 (v : PyVal) : Int :=
  if !pyTruthy v then 0
  else
    match v with
    | .int n => n
    | .bool _ => 1
    | .str s =>
        match pyParseInt s with
        | some n => n
        | Option.none => 0
    | _ => 0

/-- The candidate fields probed for the player list
(src/main.py line 170). -/
def possible_player_fields : List String :=
  ["sample", "list", "players", "player_sample", "online_players"]

/-- The first probe loop (src/main.py lines 171-175): the first candidate
field that is present in the players dict with a truthy value. -/
def findSampleIn (pi : PyDict) : List String → Option PyVal
  | [] => Option.none
  | f :: rest =>
      if dictHas pi f && pyTruthy (dictGet pi f)
      then some (dictGet pi f)
      else findSampleIn pi rest

/-- `isinstance(value, (list, str))`. -/
def isListOrStr : PyVal → Bool
  | .list _ => true
  | .str _ => true
  | _ => false

/-- The fallback scan (src/main.py lines 182-186): the first dict item
whose key is neither `online` nor `max` and whose value is a list or a
string. -/
def fallbackSample : List (String × PyVal) → Option PyVal
  | [] => Option.none
  | (k, v) :: rest =>
      if (k != "online" && k != "max") && isListOrStr v
      then some v
      else fallbackSample rest

/-- The players branch of `_fetch_server_data` (src/main.py lines
150-190): a dict yields coerced online/max counts and the probed sample
(the fallback scan runs only when the probes found nothing, the online
count is positive and the dict has more than two keys); any other value
yields counts 0 and the sample set to the empty list. -/
def parsePlayers : PyVal → Int × Int × Option PyVal
  | .dict pi =>
      let online_players := pyToIntDefault0 (dictGetD pi "online" (.int 0))
      let max_players := pyToIntDefault0 (dictGetD pi "max" (.int 0))
      let s :=
        match findSampleIn pi possible_player_fields with
        | some v => some v
        | Option.none =>
            if 0 < online_players ∧ 2 < pi.toList.length
            then fallbackSample pi.toList
            else Option.none
      (online_players, max_players, s)
  | _ => (0, 0, some (pyList []))

/-- `if not raw or raw == "null": raw = dflt` (src/main.py lines 143-144
and 194-195). -/
def coalesceNull (v : PyVal) (dflt : String) : PyVal :=
  if !pyTruthy v || v = .str "null" then .str dflt else v

/-- The motd branch (src/main.py lines 198-204): for a dict, take its
`clean` entry (default empty list) and space-join the `str()` of the
items when it is a list, otherwise keep the raw `clean` value; for a
non-dict, `str(motd)` when truthy, else the empty string. -/
def motdText : PyVal → PyVal
  | .dict m =>
      match dictGetD m "clean" (pyList []) with
      | .list items => .str (String.intercalate " " (items.toList.map pyStr))
      | other => other
  | v => if pyTruthy v then .str (pyStr v) else .str ""

/-- The normalization portion of `_fetch_server_data` (src/main.py lines
137-214), from the decoded JSON document to the returned dictionary.  A
non-object document makes the attribute accesses raise, which the
catch-all at line 225 turns into a None return, modelled as `none`. -/
def normalizeData (data : PyVal) (self_server_name : String) : Option ServerData :=
  match data with
  | .dict kvs =>
      let pp := parsePlayers (dictGetD kvs "players" (pyDict []))
      some
        { status := dictGetD kvs "status" (.str "未知")
          name := coalesceNull (dictGetD kvs "hostname" (.str self_server_name)) self_server_name
          version := coalesceNull (dictGetD kvs "version" (.str "未知版本")) "未知版本"
          online := pp.1
          max := pp.2.1
          players := pp.2.2.getD (pyList [])
          motd := motdText (dictGetD kvs "motd" (pyDict [])) }
  | _ => Option.none

/-- One change line appended by `check_server_changes`, carrying exactly
the data interpolated into the Python message string:
`joinedNames s d` is the line listing the set `s` of new names with the
positive diff `d`; `joinedCount d` is the count-only join line;
`leftNames s d` lists the departed set `s` with the negative diff `d`;
`leftCount n` is the count-only leave line showing `abs(diff) = n`. -/
inductive ChangeEvent where
  | joinedNames (names : Finset String) (diff : Int)
  | joinedCount (diff : Int)
  | leftNames (names : Finset String) (diff : Int)
  | leftCount (n : Nat)
deriving DecidableEq

/-- The message component of a `check_server_changes` return, one
constructor per distinct return path: `fetchFailed` for a None input,
`initHasPlayers` and `initStarted` for the two first-observation
messages, `changes` for a joined newline list of change lines, and
`noChange` for the quiet path. -/
inductive CheckMsg where
  | fetchFailed
  | initHasPlayers
  | initStarted
  | changes (evs : List ChangeEvent)
  | noChange
deriving DecidableEq

/-- The change-collection block of `check_server_changes`
(src/main.py lines 322-342): with `player_diff` the current online count
minus the stored one, a positive diff appends one join line (naming the
set difference current minus stored when it is non-empty, otherwise the
count-only form) and a negative diff appends one leave line (stored
minus current, or the count-only form showing `abs(player_diff)`);
a zero diff appends nothing. -/
def computeChanges (last_count : Int) (last_list : List String)
    (current_online : Int) (current_names : List String) : List ChangeEvent :=
  let player_diff : Int := current_online - last_count
  if 0 < player_diff then
    let new_players : Finset String := current_names.toFinset \ last_list.toFinset
    if new_players = ∅ then [.joinedCount player_diff]
    else [.joinedNames new_players player_diff]
  else if player_diff < 0 then
    let left_players : Finset String := last_list.toFinset \ current_names.toFinset
    if left_players = ∅ then [.leftCount player_diff.natAbs]
    else [.leftNames left_players player_diff]
  else []

/-- `check_server_changes` (src/main.py lines 298-353).  Returns the
state after the call together with the `(should_send, message)` pair the
Python returns.  The state mutation of the source is modelled by
returning the new state. -/
def check_server_changes (st : MonitorState) (server_data : Option ServerData) :
    MonitorState × Bool × CheckMsg :=
  match server_data with
  | Option.none => (st, false, .fetchFailed)
  | some d =>
      let current_online := d.online
      let current_player_names := _extract_player_names d.players
      let current_status := d.status
      match st.last_player_count with
      | Option.none =>
          let st1 : MonitorState :=
            { last_player_count := some current_online
              last_player_list := current_player_names
              last_status := some current_status }
          if 0 < current_online then (st1, true, .initHasPlayers)
          else (st1, true, .initStarted)
      | some last_count =>
          let changes : List ChangeEvent :=
            computeChanges last_count st.last_player_list current_online current_player_names
          let st1 : MonitorState :=
            { last_player_count := some current_online
              last_player_list := current_player_names
              last_status := some current_status }
          if changes = [] then (st1, false, .noChange)
          else (st1, true, .changes changes)

/-- One iteration of the polling loop `direct_hello_task`
(src/main.py lines 398-440), given the fetch result: a failed fetch is
skipped without touching the state; otherwise the detector runs and a
notification (containing the change message) goes out exactly when it
returned `should_send = True`. -/
def pollOnce (st : MonitorState) (fetched : Option ServerData) :
    MonitorState × Option CheckMsg :=
  match fetched with
  | Option.none => (st, Option.none)
  | some d =>
      let r := check_server_changes st (some d)
      if r.2.1 then (r.1, some r.2.2) else (r.1, Option.none)


/-- Modelled from the spec: the error taxonomy of the VarInt decoder
(spec section 7), which has no counterpart under src/.  `truncatedStream`
is raised when the byte source ends before a terminating byte,
`varIntTooLong` when more than 5 bytes are read without termination. -/
inductive ProtocolError where
  | truncatedStream
  | varIntTooLong
deriving DecidableEq

/-- Fuel-indexed body of `encodeVarInt`; the fuel only bounds the
recursion depth and `encodeVarInt` passes enough of it for every input
(`encodeVarIntAux_irrel` shows any sufficient fuel gives the same
bytes). -/
def encodeVarIntAux : Nat → Nat → List Nat
  | 0, _ => []
  | f + 1, v =>
      if v < 128 then [v]
      else (v % 128 + 128) :: encodeVarIntAux f (v / 128)

/-- Modelled from the spec: `encodeVarInt` (spec section 4.1), which has
no counterpart under src/.  Repeatedly emit the low 7 bits with the
continuation bit (128) set while the remaining value needs more bytes,
shifting right 7 bits each step; the final byte has the continuation bit
clear, and value 0 yields the single zero byte. -/
def encodeVarInt (v : Nat) : List Nat :=
  encodeVarIntAux (v + 1) v

/-- Helper for `decodeVarInt`: read bytes accumulating 7 bits per byte at
increasing shift offsets, with at most `k` bytes allowed. -/
def decodeVarIntAux : List Nat → Nat → Except ProtocolError (Nat × Nat)
  | _, 0 => .error .varIntTooLong
  | [], _ + 1 => .error .truncatedStream
  | b :: rest, k + 1 =>
      if b < 128 then .ok (b, 1)
      else
        match decodeVarIntAux rest k with
        | .ok (v, c) => .ok ((b - 128) + 128 * v, c + 1)
        | .error e => .error e

/-- Modelled from the spec: `decodeVarInt` (spec section 4.1), which has
no counterpart under src/.  Reads bytes one at a time until a byte with
the continuation bit clear, returning the value and the number of bytes
consumed; an exhausted source fails with `truncatedStream` and more than
5 bytes without termination fails with `varIntTooLong`. -/
def decodeVarInt (bs : List Nat) : Except ProtocolError (Nat × Nat) :=
  decodeVarIntAux bs 5

/-- The aliases of the C10 claim wording, in claim order. -/
def claimAliases : List String :=
  ["name", "username", "name_clean", "playername", "xuid"]

/-- Stated from the claim wording, for comparison with the source: the
value of the first PRESENT key among the aliases, regardless of that
value. -/
def firstPresentIn (kvs : PyDict) : List String → Option PyVal
  | [] => Option.none
  | f :: rest =>
      if dictHas kvs f then some (dictGet kvs f) else firstPresentIn kvs rest

/-- Stated from the claim wording, for comparison with the source: dict
records map to the stringified value of their first present alias key
and are dropped only when no alias key is present; non-dict elements are
stringified. -/
def claimedFromList : List PyVal → List String
  | [] => []
  | .dict kvs :: rest =>
      match firstPresentIn kvs claimAliases with
      | some v => pyStr v :: claimedFromList rest
      | Option.none => claimedFromList rest
  | p :: rest => pyStr p :: claimedFromList rest

/-- Stated from the claim wording, for comparison with the source:
name extraction as the C10 claim describes it. -/
def extractNamesClaimed (player_sample : PyVal) : List String :=
  if !pyTruthy player_sample then []
  else
    match player_sample with
    | .str s => ((pySplitComma s).map pyStrip).filter (fun x => x != "")
    | .list xs => claimedFromList xs.toList
    | _ => []

theorem encodeVarIntAux_irrel :
    ∀ f g v : Nat, v < f → v < g → encodeVarIntAux f v = encodeVarIntAux g v := by
  intro f
  induction f with
  | zero => omega
  | succ f ih =>
      intro g v hf hg
      match g, hg with
      | g + 1, _ =>
        simp only [encodeVarIntAux]
        by_cases hs : v < 128
        · simp [hs]
        · simp only [hs, if_false]
          have hlt : v / 128 < v := Nat.div_lt_self (by omega) (by omega)
          rw [ih g (v / 128) (by omega) (by omega)]

/-- The defining recurrence of `encodeVarInt`. -/
theorem encodeVarInt_eq (v : Nat) :
    encodeVarInt v = if v < 128 then [v] else (v % 128 + 128) :: encodeVarInt (v / 128) := by
  show encodeVarIntAux (v + 1) v = _
  by_cases hs : v < 128
  · simp [encodeVarIntAux, hs]
  · have hlt : v / 128 < v := Nat.div_lt_self (by omega) (by omega)
    simp only [encodeVarIntAux, hs, if_false]
    rw [encodeVarIntAux_irrel v (v / 128 + 1) (v / 128) (by omega) (by omega)]
    rfl

theorem encodeVarInt_small {v : Nat} (h : v < 128) : encodeVarInt v = [v] := by
  rw [encodeVarInt_eq]
  simp [h]

theorem encodeVarInt_large {v : Nat} (h : ¬ v < 128) :
    encodeVarInt v = (v % 128 + 128) :: encodeVarInt (v / 128) := by
  rw [encodeVarInt_eq]
  simp [h]

theorem decodeVarIntAux_encode (k : Nat) :
    ∀ v : Nat, 1 ≤ k → v < 128 ^ k →
      decodeVarIntAux (encodeVarInt v) k = .ok (v, (encodeVarInt v).length) := by
  induction k with
  | zero => omega
  | succ k ih =>
      intro v _ hv
      by_cases hsmall : v < 128
      · rw [encodeVarInt_small hsmall]
        simp [decodeVarIntAux, hsmall]
      · rw [encodeVarInt_large hsmall]
        have hk1 : 1 ≤ k := by
          by_contra hk0
          have : k = 0 := by omega
          subst this
          simp at hv
          omega
        have hdiv : v / 128 < 128 ^ k := by
          rw [Nat.div_lt_iff_lt_mul (by omega)]
          calc v < 128 ^ (k + 1) := hv
            _ = 128 ^ k * 128 := by ring
        have hrec := ih (v / 128) hk1 hdiv
        have hble : ¬ (v % 128 + 128 < 128) := by omega
        simp only [decodeVarIntAux, hble, if_false, hrec]
        have hmod : v % 128 + 128 - 128 + 128 * (v / 128) = v := by
          have := Nat.mod_add_div v 128
          omega
        simp [hmod, List.length_cons]
        omega

/-- Round-trip of the spec-modelled VarInt codec on the unsigned 32-bit
domain. -/
theorem decodeVarInt_encodeVarInt {v : Nat} (h : v < 4294967296) :
    decodeVarInt (encodeVarInt v) = .ok (v, (encodeVarInt v).length) :=
  decodeVarIntAux_encode 5 v (by omega) (by omega)


theorem check_first (st : MonitorState) (d : ServerData)
    (h : st.last_player_count = Option.none) :
    check_server_changes st (some d) =
      (⟨some d.online, _extract_player_names d.players, some d.status⟩, true,
        if 0 < d.online then CheckMsg.initHasPlayers else CheckMsg.initStarted) := by
  simp only [check_server_changes, h]
  by_cases hon : 0 < d.online <;> simp [hon]

theorem check_observed (st : MonitorState) (d : ServerData) (lc : Int)
    (h : st.last_player_count = some lc) :
    check_server_changes st (some d) =
      (⟨some d.online, _extract_player_names d.players, some d.status⟩,
        if computeChanges lc st.last_player_list d.online (_extract_player_names d.players) = []
        then (false, CheckMsg.noChange)
        else (true,
          CheckMsg.changes
            (computeChanges lc st.last_player_list d.online (_extract_player_names d.players)))) := by
  simp only [check_server_changes, h]
  by_cases hc :
      computeChanges lc st.last_player_list d.online (_extract_player_names d.players) = [] <;>
    simp [hc]

theorem computeChanges_self (lc : Int) (ll : List String) (cn : List String) :
    computeChanges lc ll lc cn = [] := by
  simp [computeChanges]

theorem computeChanges_length (lc : Int) (ll : List String) (co : Int) (cn : List String) :
    computeChanges lc ll co cn = [] ∨ (computeChanges lc ll co cn).length = 1 := by
  simp only [computeChanges]
  split_ifs <;> simp

/-- C3: for every unsigned 32-bit value `v`, decoding the VarInt encoding
of `v` yields `v` back, with the known vectors 0, 127, 128, 25565 and
4294967295 encoding as stated.  (Spec-modelled: the codec has no
counterpart under src/.) -/
theorem C3_varint_roundtrip :
    (∀ v : Nat, v < 4294967296 →
        decodeVarInt (encodeVarInt v) = .ok (v, (encodeVarInt v).length)) ∧
    encodeVarInt 0 = [0x00] ∧
    encodeVarInt 127 = [0x7F] ∧
    encodeVarInt 128 = [0x80, 0x01] ∧
    encodeVarInt 25565 = [0xDD, 0xC7, 0x01] ∧
    encodeVarInt 4294967295 = [0xFF, 0xFF, 0xFF, 0xFF, 0x0F] :=
  ⟨fun _ h => decodeVarInt_encodeVarInt h,
    by decide, by decide, by decide, by decide, by decide⟩

/-- C3 witness: the round trip instantiated at 25565. -/
theorem C3_varint_roundtrip_witness :
    25565 < 4294967296 ∧
    decodeVarInt (encodeVarInt 25565) = .ok (25565, (encodeVarInt 25565).length) :=
  ⟨by decide, C3_varint_roundtrip.1 25565 (by decide)⟩

/-- C5: a failed poll (fetched data is None) produces no notification and
leaves the stored monitor state completely unchanged, both at the
detector (src/main.py lines 300-301) and in the polling-loop body
(lines 406-410), which skips the iteration. -/
theorem C5_failed_fetch (st : MonitorState) :
    check_server_changes st Option.none = (st, false, .fetchFailed) ∧
    pollOnce st Option.none = (st, Option.none) :=
  ⟨rfl, rfl⟩

/-- C9: on the first-ever observation (stored count is None) with
non-null data, the detector always sets `should_send = true`, picks the
fixed message `initHasPlayers` (the Python string mentioning players
online) exactly when the current online count is positive and the fixed
message `initStarted` otherwise, and stores the current count, extracted
name list and status. -/
theorem C9_first_observation (st : MonitorState) (d : ServerData)
    (h : st.last_player_count = Option.none) :
    check_server_changes st (some d) =
      (⟨some d.online, _extract_player_names d.players, some d.status⟩, true,
        if 0 < d.online then CheckMsg.initHasPlayers else CheckMsg.initStarted) :=
  check_first st d h

/-- C9 witness: first observation of a snapshot with 3 players online. -/
theorem C9_first_observation_witness :
    check_server_changes ⟨Option.none, [], Option.none⟩
        (some ⟨.str "online", .str "n", .str "v", 3, 10,
          pyList [.str "A", .str "B", .str "C"], .str ""⟩) =
      (⟨some 3, ["A", "B", "C"], some (.str "online")⟩, true, CheckMsg.initHasPlayers) := by
  have h := C9_first_observation ⟨Option.none, [], Option.none⟩
    ⟨.str "online", .str "n", .str "v", 3, 10,
      pyList [.str "A", .str "B", .str "C"], .str ""⟩ rfl
  exact h.trans (by decide)

/-- C4: whenever the previous state has been observed, the state stored
after the detector returns equals the current snapshot's online count
and extracted player-name list, unconditionally (in particular also on
the zero-event path). -/
theorem C4_state_advanced (st : MonitorState) (d : ServerData) (lc : Int)
    (h : st.last_player_count = some lc) :
    (check_server_changes st (some d)).1.last_player_count = some d.online ∧
    (check_server_changes st (some d)).1.last_player_list
      = _extract_player_names d.players := by
  rw [check_observed st d lc h]
  exact ⟨rfl, rfl⟩

/-- C4 witness: a comparison producing zero events (same count, same
names) still advances the stored state to the current snapshot. -/
theorem C4_state_advanced_witness :
    (check_server_changes ⟨some 2, ["A", "B"], Option.none⟩
        (some ⟨.str "online", .str "n", .str "v", 2, 10,
          pyList [.str "A", .str "B"], .str ""⟩)).1.last_player_count = some 2 ∧
    (check_server_changes ⟨some 2, ["A", "B"], Option.none⟩
        (some ⟨.str "online", .str "n", .str "v", 2, 10,
          pyList [.str "A", .str "B"], .str ""⟩)).1.last_player_list = ["A", "B"] := by
  have h := C4_state_advanced ⟨some 2, ["A", "B"], Option.none⟩
    ⟨.str "online", .str "n", .str "v", 2, 10, pyList [.str "A", .str "B"], .str ""⟩ 2 rfl
  exact ⟨h.1.trans rfl, h.2.trans (by decide)⟩

/-- C7: calling the detector twice in a row with an identical current
snapshot (the second call seeing the state already updated by the first)
yields `should_send = false` and zero change events on the second call,
with the state unchanged. -/
theorem C7_idempotent (st : MonitorState) (d : ServerData) :
    check_server_changes (check_server_changes st (some d)).1 (some d) =
      ((check_server_changes st (some d)).1, false, CheckMsg.noChange) := by
  have h1 : (check_server_changes st (some d)).1 =
      ⟨some d.online, _extract_player_names d.players, some d.status⟩ := by
    rcases h : st.last_player_count with _ | lc
    · rw [check_first st d h]
    · rw [check_observed st d lc h]
  rw [h1, check_observed _ d d.online rfl]
  simp [computeChanges_self]

/-- C1 counterexample: previous names {A,B} with count 2, current online
snapshot with names {A,C} and count 2 — the claim requires the
comparison to emit both a left and a joined event, but the code emits no
event at all (the count diff is zero), returning `should_send = false`
and the no-change message. -/
theorem C1_counterexample :
    check_server_changes ⟨some 2, ["A", "B"], some (.str "online")⟩
        (some ⟨.str "online", .str "n", .str "v", 2, 20,
          pyList [.str "A", .str "C"], .str ""⟩)
      = (⟨some 2, ["A", "C"], some (.str "online")⟩, false, CheckMsg.noChange) := by
  decide

/-- C1 (amended): the detector is driven solely by the count delta:
whenever the previous state has been observed, equal counts emit no
event at all (even when the name sets changed, as with {A,B} to {A,C}
at counts 2 to 2), and any single comparison emits at most one change
event, so left and joined events never co-occur. -/
theorem C1_count_driven (st : MonitorState) (d : ServerData) (lc : Int)
    (h : st.last_player_count = some lc) :
    (d.online = lc → (check_server_changes st (some d)).2.2 = CheckMsg.noChange) ∧
    (∀ evs, (check_server_changes st (some d)).2.2 = CheckMsg.changes evs →
      evs.length = 1) := by
  rw [check_observed st d lc h]
  constructor
  · intro he
    subst he
    simp [computeChanges_self]
  · intro evs hevs
    by_cases hc :
        computeChanges lc st.last_player_list d.online (_extract_player_names d.players) = []
    · simp [hc] at hevs
    · simp only [hc, if_false] at hevs
      rcases computeChanges_length lc st.last_player_list d.online
          (_extract_player_names d.players) with h0 | h1
      · exact absurd h0 hc
      · have : CheckMsg.changes
            (computeChanges lc st.last_player_list d.online (_extract_player_names d.players))
            = CheckMsg.changes evs := hevs
        have hev : computeChanges lc st.last_player_list d.online
            (_extract_player_names d.players) = evs := by
          injection this
        rw [← hev]
        exact h1

/-- C1 witness: the amended statement instantiated at the comparison
{A,B} to {A,C} with counts 2 to 2. -/
theorem C1_count_driven_witness :
    (check_server_changes ⟨some 2, ["A", "B"], some (.str "online")⟩
        (some ⟨.str "online", .str "n", .str "v", 2, 20,
          pyList [.str "A", .str "C"], .str ""⟩)).2.2 = CheckMsg.noChange := by
  have h := C1_count_driven ⟨some 2, ["A", "B"], some (.str "online")⟩
    ⟨.str "online", .str "n", .str "v", 2, 20, pyList [.str "A", .str "C"], .str ""⟩ 2 rfl
  exact h.1 rfl

/-- C2 counterexample: with the previous state observed (two players) and
a current snapshot whose status is offline with count 0, the claim
requires that no membership diff is computed and no join/leave event is
emitted; the code nevertheless computes the diff and emits a leave event
naming both players, with `should_send = true`. -/
theorem C2_counterexample :
    check_server_changes ⟨some 2, ["A", "B"], some (.str "online")⟩
        (some ⟨.str "offline", .str "n", .str "v", 0, 0, pyList [], .str ""⟩)
      = (⟨some 0, [], some (.str "offline")⟩, true,
          CheckMsg.changes [.leftNames ({"A", "B"} : Finset String) (-2)]) := by
  decide

/-- C2 (amended): the detector never inspects the current status.  Two
current snapshots differing only in their status field produce the same
`(should_send, message)` pair — hence the same membership diff and
events — and the same stored count and name list; the stored state is
always advanced, its status field recording the current status. -/
theorem C2_status_ignored (st : MonitorState) (d : ServerData) (s1 s2 : PyVal) :
    ((check_server_changes st (some { d with status := s1 })).2
      = (check_server_changes st (some { d with status := s2 })).2) ∧
    ((check_server_changes st (some { d with status := s1 })).1.last_player_count
      = (check_server_changes st (some { d with status := s2 })).1.last_player_count) ∧
    ((check_server_changes st (some { d with status := s1 })).1.last_player_list
      = (check_server_changes st (some { d with status := s2 })).1.last_player_list) ∧
    ((check_server_changes st (some { d with status := s1 })).1.last_status = some s1) := by
  rcases h : st.last_player_count with _ | lc
  · rw [check_first st { d with status := s1 } h, check_first st { d with status := s2 } h]
    simp
  · rw [check_observed st { d with status := s1 } lc h,
      check_observed st { d with status := s2 } lc h]
    simp

/-- C8 counterexample: the count-only change event carries the signed
difference but not the current count.  The comparisons 5 to 6 and 0 to 1
(no names available either time) emit the identical event, although
their current counts differ — so the event emitted at 5 to 6 cannot be
`CountDelta(+1, 6)` carrying the current count 6. -/
theorem C8_counterexample :
    (check_server_changes ⟨some 5, [], Option.none⟩
        (some ⟨.str "online", .str "n", .str "v", 6, 20, pyList [], .str ""⟩)).2.2
      = CheckMsg.changes [.joinedCount 1] ∧
    (check_server_changes ⟨some 0, [], Option.none⟩
        (some ⟨.str "online", .str "n", .str "v", 1, 20, pyList [], .str ""⟩)).2.2
      = CheckMsg.changes [.joinedCount 1] ∧
    (⟨.str "online", .str "n", .str "v", 6, 20, pyList [], .str ""⟩ : ServerData).online
      ≠ (⟨.str "online", .str "n", .str "v", 1, 20, pyList [], .str ""⟩ : ServerData).online :=
  ⟨by decide, by decide, by decide⟩

/-- C8 (amended): for every comparison with an observed previous state
where both name-set differences are empty but the count changed, the
detector emits exactly one count-only event carrying the count
difference (the joined form with the positive diff for an increase, the
leave form showing the absolute difference for a decrease); the current
count is not part of the event. -/
theorem C8_count_only_fallback (st : MonitorState) (d : ServerData) (lc : Int)
    (h : st.last_player_count = some lc)
    (hj : (_extract_player_names d.players).toFinset \ st.last_player_list.toFinset = ∅)
    (hl : st.last_player_list.toFinset \ (_extract_player_names d.players).toFinset = ∅)
    (hne : d.online ≠ lc) :
    (check_server_changes st (some d)).2.2 =
      CheckMsg.changes
        [if 0 < d.online - lc then ChangeEvent.joinedCount (d.online - lc)
         else ChangeEvent.leftCount (d.online - lc).natAbs] := by
  rw [check_observed st d lc h]
  have hc : computeChanges lc st.last_player_list d.online (_extract_player_names d.players) =
      [if 0 < d.online - lc then ChangeEvent.joinedCount (d.online - lc)
       else ChangeEvent.leftCount (d.online - lc).natAbs] := by
    simp only [computeChanges, hj, hl]
    by_cases h1 : 0 < d.online - lc
    · simp [h1]
    · have h2 : d.online - lc < 0 := by omega
      simp [h1, h2]
  rw [hc]
  simp

/-- C8 witness: the amended statement instantiated at previous count 5,
current count 6, no names available either time. -/
theorem C8_count_only_fallback_witness :
    (check_server_changes ⟨some 5, [], Option.none⟩
        (some ⟨.str "online", .str "n", .str "v", 6, 20, pyList [], .str ""⟩)).2.2
      = CheckMsg.changes [ChangeEvent.joinedCount 1] := by
  have h := C8_count_only_fallback ⟨some 5, [], Option.none⟩
    ⟨.str "online", .str "n", .str "v", 6, 20, pyList [], .str ""⟩ 5 rfl
    (by decide) (by decide) (by decide)
  exact h.trans (by decide)

/-- C6: normalization is total on upstream JSON objects — the object
branch always returns a snapshot, so nothing escapes as an exception —
and the named malformed cases degrade to defaults: a missing players
object gives counts 0, an empty sample and an empty description;
`players.sample` as a bare integer is carried through and extracts to
the empty name list; a null motd gives the empty description;
non-numeric counts give 0.  (The upstream schema makes the document an
object; a non-object top level is turned into a failed fetch by the
surrounding catch-all, modelled as `none`, and reaches no snapshot
field at all.) -/
theorem C6_normalizer_total :
    (∀ kvs : PyDict, ∀ sn : String, (normalizeData (.dict kvs) sn).isSome = true) ∧
    normalizeData (pyDict []) "S"
      = some ⟨.str "未知", .str "S", .str "未知版本", 0, 0, pyList [], .str ""⟩ ∧
    normalizeData (pyDict [("players", pyDict [("online", .int 3), ("sample", .int 7)])]) "S"
      = some ⟨.str "未知", .str "S", .str "未知版本", 3, 0, .int 7, .str ""⟩ ∧
    _extract_player_names (.int 7) = [] ∧
    normalizeData (pyDict [("motd", PyVal.none)]) "S"
      = some ⟨.str "未知", .str "S", .str "未知版本", 0, 0, pyList [], .str ""⟩ ∧
    normalizeData (pyDict [("players", pyDict [("online", .str "abc"), ("max", PyVal.none)])]) "S"
      = some ⟨.str "未知", .str "S", .str "未知版本", 0, 0, pyList [], .str ""⟩ :=
  ⟨fun _ _ => rfl, by decide, by decide, by decide, by decide, by decide⟩

/-- C10 counterexample: on a record whose first alias key `name` is
present but holds the empty string, the claim-stated extraction takes
that present key and yields `[""]`, while the code's `or`-chain skips
falsy values and yields `["bob"]` from the later `username` key — so the
code does not take the first present alias key. -/
theorem C10_counterexample :
    _extract_player_names
        (pyList [pyDict [("name", .str ""), ("username", .str "bob")]]) = ["bob"] ∧
    extractNamesClaimed
        (pyList [pyDict [("name", .str ""), ("username", .str "bob")]]) = [""] ∧
    (["bob"] : List String) ≠ [""] :=
  ⟨by decide, by decide, by decide⟩

theorem extractFromList_length_le (xs : List PyVal) :
    (extractFromList xs).length ≤ xs.length := by
  induction xs with
  | nil => simp [extractFromList]
  | cons p rest ih =>
      cases p with
      | dict kvs =>
          simp only [extractFromList]
          split
          · simpa using ih
          · exact ih.trans (Nat.le_succ _)
      | none => simpa [extractFromList] using ih
      | bool b => simpa [extractFromList] using ih
      | int n => simpa [extractFromList] using ih
      | str s => simpa [extractFromList] using ih
      | list ys => simpa [extractFromList] using ih

theorem PyList.toList_ofList (xs : List PyVal) : (PyList.ofList xs).toList = xs := by
  induction xs with
  | nil => rfl
  | cons x t ih => simp [PyList.ofList, PyList.toList, ih]

/-- C10 (amended): player-name extraction is a total deterministic
function: it splits a comma-separated string on commas, trims and drops
empty fragments; over a list it stringifies non-dict elements and maps a
dict record to its first alias key holding a truthy value among name,
username, name_clean, playername, xuid (present keys with falsy values
such as the empty string are skipped), dropping records whose alias
chain yields no truthy value; it returns the empty list for null, empty
or unrecognized input — so the output can be shorter than the input
sample. -/
theorem C10_extraction_total :
    (∀ xs : List PyVal,
      (_extract_player_names (.list (PyList.ofList xs))).length ≤ xs.length) ∧
    _extract_player_names PyVal.none = [] ∧
    _extract_player_names (.str " A , ,B ") = ["A", "B"] ∧
    _extract_player_names (.int 7) = [] ∧
    _extract_player_names (pyDict [("name", .str "x")]) = [] ∧
    _extract_player_names (pyList [pyDict [("score", .int 3)], .str "A"]) = ["A"] ∧
    _extract_player_names
        (pyList [pyDict [("name", .str ""), ("username", .str "bob")]]) = ["bob"] := by
  refine ⟨?_, by decide, by decide, by decide, by decide, by decide, by decide⟩
  intro xs
  cases xs with
  | nil => simp [_extract_player_names, PyList.ofList, pyTruthy]
  | cons x t =>
      have hx : _extract_player_names (.list (PyList.ofList (x :: t)))
          = extractFromList (x :: t) := by
        simp [_extract_player_names, PyList.ofList, pyTruthy, PyList.toList_ofList]
        rw [show (PyList.cons x (PyList.ofList t)).toList = x :: t from
          PyList.toList_ofList (x :: t)]
      rw [hx]
      exact extractFromList_length_le (x :: t)
